import Mathlib

/-!
Shallow embedding of the telemetry analysis pipeline of the spm-analytics
repository (src/app.py and src/streamlit_app.py), together with theorems
checking the specification's claims against the embedded code.

Numeric conventions: machine floats are idealised as real numbers; CSV
numeric cells that the stoppage and distance logic compares exactly
(timestamps in seconds, speeds, per-row incremental distances) are embedded
as rationals so that the corresponding predicates stay decidable.
-/

namespace SPM

/-! ## Geodesic Distance component
Embeds haversine_vectorized (src/app.py lines 16-23; the copy in
src/streamlit_app.py lines 28-35 is identical). -/

/-- Degree-to-radian conversion, the embedding of numpy.radians. -/
noncomputable def radians (x : ℝ) : ℝ := x * Real.pi / 180

/-- Two-argument arctangent, the embedding of numpy.arctan2 on real inputs. -/
noncomputable def arctan2 (y x : ℝ) : ℝ :=
  if 0 < x then Real.arctan (y / x)
  else if x < 0 then
    (if 0 ≤ y then Real.arctan (y / x) + Real.pi else Real.arctan (y / x) - Real.pi)
  else
    (if 0 < y then Real.pi / 2 else if y < 0 then -(Real.pi / 2) else 0)

/-- Embedding of haversine_vectorized as written in the source.  The source
computes phi1 and phi2 (the latitudes converted to radians) but then passes
lat1 and lat2 — the latitudes still in degrees — to np.cos; the embedding
keeps that behaviour exactly, including the unused phi1 and phi2. -/
noncomputable def haversine_vectorized (lat1 lon1 lat2 lon2 : ℝ) : ℝ :=
  let R : ℝ := 6371000
  let _phi1 := radians lat1
  let _phi2 := radians lat2
  let dphi := radians (lat2 - lat1)
  let dlambda := radians (lon2 - lon1)
  let a := Real.sin (dphi / 2) ^ 2 +
    Real.cos lat1 * Real.cos lat2 * Real.sin (dlambda / 2) ^ 2
  let c := 2 * arctan2 (Real.sqrt a) (Real.sqrt (1 - a))
  R * c

/-- Modelled from the spec: the haversine formula on a sphere of radius
6,371,000 m, as section 4.1 of the spec states it (cosines taken of the
latitudes in radians).  Used only to compare the source's
haversine_vectorized against the spec's contract. -/
noncomputable def haversine_spec (lat1 lon1 lat2 lon2 : ℝ) : ℝ :=
  let R : ℝ := 6371000
  let phi1 := radians lat1
  let phi2 := radians lat2
  let dphi := radians (lat2 - lat1)
  let dlambda := radians (lon2 - lon1)
  let a := Real.sin (dphi / 2) ^ 2 +
    Real.cos phi1 * Real.cos phi2 * Real.sin (dlambda / 2) ^ 2
  let c := 2 * arctan2 (Real.sqrt a) (Real.sqrt (1 - a))
  R * c

/-- On the positive-x branch numpy's arctan2 is the one-argument arctangent
of the quotient. -/
lemma arctan2_of_pos {y x : ℝ} (hx : 0 < x) : arctan2 y x = Real.arctan (y / x) := by
  simp [arctan2, hx]

/-- The cosine of the real number 90 (ninety radians) is not zero, because
90 = (2k+1)·π/2 would make π rational. -/
lemma cos_ninety_ne_zero : Real.cos 90 ≠ 0 := by
  intro h
  obtain ⟨k, hk⟩ := Real.cos_eq_zero_iff.mp h
  have hk0 : (2 * (k : ℝ) + 1) ≠ 0 := by
    have hz : (2 * k + 1 : ℤ) ≠ 0 := by omega
    exact_mod_cast hz
  have hpi : Real.pi = 180 / (2 * (k : ℝ) + 1) := by
    rw [eq_div_iff hk0]
    linear_combination (-2 : ℝ) * hk
  have hmem : ((180 / (2 * (k : ℚ) + 1) : ℚ) : ℝ) = Real.pi := by
    rw [hpi]; push_cast; ring
  exact irrational_pi ⟨_, hmem⟩

/-- For 0 < a < 1 the angle the haversine core computes is strictly
positive. -/
lemma arctan2_sqrt_pos {a : ℝ} (h0 : 0 < a) (h1 : a < 1) :
    0 < arctan2 (Real.sqrt a) (Real.sqrt (1 - a)) := by
  have hx : 0 < Real.sqrt (1 - a) := Real.sqrt_pos.mpr (by linarith)
  have hy : 0 < Real.sqrt a := Real.sqrt_pos.mpr h0
  rw [arctan2_of_pos hx]
  have hq : (0:ℝ) < Real.sqrt a / Real.sqrt (1 - a) := div_pos hy hx
  calc (0:ℝ) = Real.arctan 0 := Real.arctan_zero.symm
    _ < Real.arctan (Real.sqrt a / Real.sqrt (1 - a)) := Real.arctan_strictMono hq

/-- C1: the claim states that haversine_vectorized returns the great-circle
distance by the haversine formula.  The code is a slip — it computes phi1 and
phi2 in radians and then takes cosines of the latitudes in degrees — so at
the failing input (lat 90, lon 0) to (lat 90, lon 90), two descriptions of
the north pole 0 metres apart, the code returns a strictly positive distance
while the spec's haversine formula returns 0. -/
theorem C1_haversine_uses_degrees_in_cos :
    0 < haversine_vectorized 90 0 90 90 ∧ haversine_spec 90 0 90 90 = 0 := by
  have h90 : radians 90 = Real.pi / 2 := by
    unfold radians; ring
  have hsin4 : Real.sin (Real.pi / 2 / 2) ^ 2 = 1 / 2 := by
    have h24 : Real.pi / 2 / 2 = Real.pi / 4 := by ring
    rw [h24, Real.sin_pi_div_four, div_pow, Real.sq_sqrt (by norm_num : (0:ℝ) ≤ 2)]
    norm_num
  constructor
  · unfold haversine_vectorized
    simp only [sub_self, sub_zero, h90]
    rw [show radians 0 = 0 by unfold radians; ring]
    have hc : 0 < Real.cos 90 * Real.cos 90 := mul_self_pos.mpr cos_ninety_ne_zero
    have hcle : Real.cos 90 * Real.cos 90 ≤ 1 := by
      nlinarith [Real.neg_one_le_cos (90 : ℝ), Real.cos_le_one (90 : ℝ)]
    have ha : (0:ℝ) < Real.sin (0 / 2) ^ 2 +
        Real.cos 90 * Real.cos 90 * Real.sin (Real.pi / 2 / 2) ^ 2 := by
      rw [hsin4]
      simp only [zero_div, Real.sin_zero]
      nlinarith
    have ha1 : Real.sin (0 / 2) ^ 2 +
        Real.cos 90 * Real.cos 90 * Real.sin (Real.pi / 2 / 2) ^ 2 < 1 := by
      rw [hsin4]
      simp only [zero_div, Real.sin_zero]
      nlinarith
    have harc := arctan2_sqrt_pos ha ha1
    positivity
  · unfold haversine_spec
    simp only [sub_self, sub_zero, h90]
    rw [show radians 0 = 0 by unfold radians; ring]
    rw [Real.cos_pi_div_two]
    simp only [zero_div, Real.sin_zero, mul_zero, zero_mul, mul_one]
    norm_num
    rw [arctan2_of_pos (by norm_num : (0:ℝ) < 1)]
    simp [Real.arctan_zero]

/-! ## Telemetry data model
One parsed row of the loco GPS CSV after timestamp parsing: time is the
parsed 'Logging Time' in seconds, speed the 'Speed' column in km/h,
distFromPrev the 'distFromPrevLatLng' column in metres (meaningful when the
column is present), stationCode the 'last/cur stationCode' column with none
standing for a missing (NaN) cell. -/

structure LocoRow where
  time : ℚ
  lat : ℝ
  lon : ℝ
  speed : ℚ
  distFromPrev : ℚ
  stationCode : Option String

/-- Convenience constructor for concrete rows. -/
def mkRow (t : ℚ) (la lo : ℝ) (sp dp : ℚ) (sc : Option String) : LocoRow :=
  ⟨t, la, lo, sp, dp, sc⟩

/-! ## Telemetry Normalizer: cumulative distance column -/

/-- Running sums with accumulator, the embedding of pandas cumsum. -/
def cumsumAux (s : ℚ) : List ℚ → List ℚ
  | [] => []
  | x :: xs => (s + x) :: cumsumAux (s + x) xs

/-- Running sums, the embedding of pandas Series.cumsum. -/
def cumsum (l : List ℚ) : List ℚ := cumsumAux 0 l

/-- Embedding of the Distance_km computation of src/app.py lines 52-57:
cumsum of distFromPrevLatLng divided by 1000 when that column is present,
else the dummy fallback np.arange(len) * 0.01. -/
def distanceKmCol (rows : List LocoRow) (hasDistCol : Bool) : List ℚ :=
  if hasDistCol then
    (cumsum (rows.map (fun r => r.distFromPrev))).map (fun d => d / 1000)
  else
    (List.range rows.length).map (fun i : ℕ => (i : ℚ) * (1 / 100))

/-- Embedding of the cum_dist_km computation of src/streamlit_app.py lines
150-154: when the distFromPrevLatLng column is missing it is replaced by the
constant 0, then the running sum is divided by 1000. -/
def streamlitCumDistKm (rows : List LocoRow) (hasDistCol : Bool) : List ℚ :=
  (cumsum (rows.map (fun r => if hasDistCol then r.distFromPrev else 0))).map
    (fun d => d / 1000)

/-- Three telemetry rows one minute apart whose consecutive coordinates are
hundreds of kilometres apart, with no incremental-distance column. -/
def c2rows : List LocoRow :=
  [mkRow 0 0 0 50 0 none, mkRow 60 10 10 50 0 none, mkRow 120 20 20 50 0 none]

/-- C2: the claim (and the spec) require the missing-column fallback to
derive per-step distance from consecutive coordinates via the Geodesic
Distance component.  Neither file does: src/app.py fabricates a synthetic
0.01 km-per-row stride and src/streamlit_app.py zeroes the column, so on
c2rows — whose points are hundreds of kilometres apart — the code reports
0.01 km steps, respectively a constant 0 km. -/
theorem C2_fallback_is_synthetic :
    distanceKmCol c2rows false = [0, 1 / 100, 1 / 50] ∧
    streamlitCumDistKm c2rows false = [0, 0, 0] := by
  constructor
  · show (List.range c2rows.length).map (fun i : ℕ => (i : ℚ) * (1 / 100)) = _
    norm_num [c2rows, mkRow, List.range_succ]
  · norm_num [streamlitCumDistKm, c2rows, mkRow, cumsum, cumsumAux]

/-- Cumulative sums of nonnegative increments form a non-decreasing chain,
every entry at least the accumulator. -/
lemma chain'_cumsumAux (l : List ℚ) (h : ∀ x ∈ l, 0 ≤ x) : ∀ s : ℚ,
    List.Chain' (fun a b => a ≤ b) (cumsumAux s l) ∧
      ∀ y ∈ (cumsumAux s l).head?, s ≤ y := by
  induction l with
  | nil => intro s; simp [cumsumAux]
  | cons x xs ih =>
    intro s
    have hx : 0 ≤ x := h x (by simp)
    obtain ⟨ih1, ih2⟩ := ih (fun y hy => h y (by simp [hy])) (s + x)
    refine ⟨List.chain'_cons'.mpr ⟨fun y hy => ?_, ih1⟩, fun y hy => ?_⟩
    · exact ih2 y hy
    · simp only [cumsumAux, List.head?_cons, Option.mem_def, Option.some.injEq] at hy
      linarith [hy]

/-- The synthetic arange fallback column is non-decreasing. -/
lemma chain'_arange (n : ℕ) :
    List.Chain' (fun a b : ℚ => a ≤ b)
      ((List.range n).map (fun i : ℕ => (i : ℚ) * (1 / 100))) := by
  rw [List.chain'_map (fun i : ℕ => (i : ℚ) * (1 / 100))]
  cases n with
  | zero => simp
  | succ m =>
    rw [List.chain'_range_succ]
    intro k _
    show (k : ℚ) * (1 / 100) ≤ (Nat.succ k : ℚ) * (1 / 100)
    have hle : (k : ℚ) ≤ (Nat.succ k : ℚ) := by exact_mod_cast Nat.le_succ k
    nlinarith

/-- C10 (amended): whenever every per-row incremental distance is
nonnegative, the cumulative-distance column of the normalizer is
monotonically non-decreasing, in both the column-present branch and the
fallback branch. -/
theorem C10_cumulative_distance_monotone (rows : List LocoRow) (hasDistCol : Bool)
    (h : ∀ r ∈ rows, 0 ≤ r.distFromPrev) :
    List.Chain' (fun a b => a ≤ b) (distanceKmCol rows hasDistCol) := by
  cases hasDistCol with
  | true =>
    rw [show distanceKmCol rows true =
      (cumsum (rows.map (fun r => r.distFromPrev))).map (fun d => d / 1000) from rfl]
    rw [List.chain'_map]
    have hc : List.Chain' (fun a b => a ≤ b)
        (cumsum (rows.map (fun r => r.distFromPrev))) := by
      refine (chain'_cumsumAux _ ?_ 0).1
      intro x hx
      obtain ⟨r, hr, hrx⟩ := List.mem_map.mp hx
      exact hrx ▸ h r hr
    refine hc.imp ?_
    intro a b hab
    linarith
  | false =>
    rw [show distanceKmCol rows false =
      (List.range rows.length).map (fun i : ℕ => (i : ℚ) * (1 / 100)) from rfl]
    exact chain'_arange rows.length

/-- Telemetry whose second incremental distance is negative. -/
def c10rows : List LocoRow :=
  [mkRow 0 0 0 50 0 none, mkRow 60 0 0 50 (-1) none]

/-- C10 counterexample: nothing in the normalizer constrains the
incremental-distance column, and on a row whose distFromPrevLatLng is -1 the
cumulative distance strictly decreases, refuting the claim that it is
non-decreasing for every telemetry sequence. -/
theorem C10_negative_increment_decreases :
    ¬ List.Chain' (fun a b => a ≤ b) (distanceKmCol c10rows true) := by
  have hval : distanceKmCol c10rows true = [0, -(1 / 1000)] := by
    norm_num [distanceKmCol, c10rows, mkRow, cumsum, cumsumAux]
  rw [hval, List.chain'_pair]
  norm_num

/-- Closed witness for C10: on rows with nonnegative increments the theorem
applies and yields the monotone chain. -/
theorem C10_monotone_witness :
    (∀ r ∈ [mkRow 0 0 0 50 0 none, mkRow 60 0 0 50 2 none], 0 ≤ r.distFromPrev) ∧
    List.Chain' (fun a b => a ≤ b)
      (distanceKmCol [mkRow 0 0 0 50 0 none, mkRow 60 0 0 50 2 none] true) :=
  ⟨by norm_num [mkRow, List.forall_mem_cons],
   C10_cumulative_distance_monotone _ true
     (by norm_num [mkRow, List.forall_mem_cons])⟩

/-! ## Segmentation Engine
Embeds the run-length grouping idiom of src/app.py lines 102-109 (station
sections) and lines 116-124 (stoppages): a group counter that increments
whenever the key differs from the previous row's key (pandas
key != key.shift() followed by cumsum), then a groupby on the counter.
Because the counter is non-decreasing along the frame, pandas groupby on it
yields exactly the contiguous runs, which groupRuns below computes. -/

/-- Group labels from the second row on: the label increments exactly when
the key is not pandas-equal to the previous row's key, for the equality test
eq the key column uses. -/
def grpIdsAux {K : Type} (eq : K → K → Bool) (prev : K) (g : ℕ) : List K → List ℕ
  | [] => []
  | k :: ks =>
    if eq k prev then g :: grpIdsAux eq k g ks
    else (g + 1) :: grpIdsAux eq k (g + 1) ks

/-- Group labels for a whole key column.  The first row always opens group 1
because pandas compares it against the NaN that shift() produces. -/
def grpIds {K : Type} (eq : K → K → Bool) : List K → List ℕ
  | [] => []
  | k :: ks => 1 :: grpIdsAux eq k 1 ks

/-- Embedding of the pandas equality on station-code cells as the counter
comparison sees it: a missing (NaN) cell compares unequal to every cell,
itself included, so each NaN row opens a group of its own. -/
def pandasKeyEq : Option String → Option String → Bool
  | some x, some y => x == y
  | _, _ => false

/-- Gather consecutive entries carrying the same group label. -/
def groupRuns {α : Type} : List (ℕ × α) → List (ℕ × List α)
  | [] => []
  | (g, a) :: rest =>
    match groupRuns rest with
    | [] => [(g, [a])]
    | (g2, bs) :: out =>
      if g = g2 then (g, a :: bs) :: out else (g, [a]) :: (g2, bs) :: out

/-- Concatenating the groups back recovers the tagged sequence's payloads in
order. -/
lemma groupRuns_flatten {α : Type} : ∀ l : List (ℕ × α),
    ((groupRuns l).map (fun g => g.2)).flatten = l.map (fun p => p.2)
  | [] => rfl
  | (g, a) :: rest => by
    have ih := groupRuns_flatten rest
    cases h : groupRuns rest with
    | nil =>
      rw [h] at ih
      simp only [List.map_nil, List.flatten_nil] at ih
      simp [groupRuns, h, ← ih]
    | cons p out =>
      obtain ⟨g2, bs⟩ := p
      rw [h] at ih
      simp only [List.map_cons, List.flatten_cons] at ih
      by_cases hg : g = g2 <;>
        simp [groupRuns, h, hg, ← ih]

/-- The labels grpIds produces are as many as the keys. -/
lemma grpIdsAux_length {K : Type} (eq : K → K → Bool) :
    ∀ (prev : K) (g : ℕ) (l : List K), (grpIdsAux eq prev g l).length = l.length
  | _, _, [] => rfl
  | prev, g, k :: ks => by
    cases hk : eq k prev <;>
      simp [grpIdsAux, hk, grpIdsAux_length]

/-- The label column has the length of the key column. -/
lemma grpIds_length {K : Type} (eq : K → K → Bool) (l : List K) :
    (grpIds eq l).length = l.length := by
  cases l with
  | nil => rfl
  | cons k ks => simp [grpIds, grpIdsAux_length]

/-- Dropping the labels of a zip recovers the rows. -/
lemma zip_map_snd {α : Type} :
    ∀ (gs : List ℕ) (rows : List α), gs.length = rows.length →
      (gs.zip rows).map (fun p => p.2) = rows
  | [], [], _ => rfl
  | [], _ :: _, h => by simp at h
  | _ :: _, [], h => by simp at h
  | g :: gs, r :: rows, h => by
    simp only [List.zip_cons_cons, List.map_cons]
    rw [zip_map_snd gs rows (by simpa using h)]

/-- Filtering a zip on a row predicate and dropping the labels is filtering
the rows. -/
lemma zip_filter_map_snd {α : Type} (p : α → Bool) :
    ∀ (gs : List ℕ) (rows : List α), gs.length = rows.length →
      ((gs.zip rows).filter (fun q => p q.2)).map (fun q => q.2) = rows.filter p
  | [], [], _ => rfl
  | [], _ :: _, h => by simp at h
  | _ :: _, [], h => by simp at h
  | g :: gs, r :: rows, h => by
    simp only [List.zip_cons_cons, List.filter_cons]
    cases hp : p r <;>
      simp [hp, zip_filter_map_snd p gs rows (by simpa using h)]

/-- Embedding of the section grouping of src/app.py lines 102-109: every row
is tagged with the run counter of its station code, then pandas groupby on
(section_grp, stationCode) drops the rows whose station code is NaN (its
default dropna=True), and the kept rows are grouped.  Inside one counter run
the kept code is constant, so the groups are the counter's runs of the kept
rows, and a NaN row's unique counter keeps its neighbours separate. -/
def sectionGroups (rows : List LocoRow) : List (ℕ × List LocoRow) :=
  groupRuns (((grpIds pandasKeyEq (rows.map (fun r => r.stationCode))).zip rows).filter
    (fun q => q.2.stationCode.isSome))

/-- Embedding of the is_stopped column: Speed strictly below the stoppage
speed threshold. -/
def isStopped (thresh : ℚ) (r : LocoRow) : Bool :=
  decide (r.speed < thresh)

/-- Embedding of the stoppage grouping of src/app.py lines 116-124: rows are
tagged with the run counter of is_stopped over the whole frame, then only
the stopped rows are kept and grouped by the counter. -/
def stopGroups (rows : List LocoRow) (thresh : ℚ) : List (ℕ × List LocoRow) :=
  groupRuns (((grpIds (fun a b => a == b)
      (rows.map (fun r => isStopped thresh r))).zip rows).filter
    (fun q => isStopped thresh q.2))

/-- C7 (amended): the station-code specialization partitions exactly the
rows that carry a station code — pandas groupby drops rows whose group key
is NaN — so concatenating its groups gives back those rows and the group
sizes sum to their number; when every row carries a station code this is a
partition of the whole input.  The stoppage specialization partitions
exactly the rows whose speed is below the threshold, because src/app.py
filters the frame to the stopped rows before grouping. -/
theorem C7_segmentation_partition (rows : List LocoRow) (thresh : ℚ) :
    ((sectionGroups rows).map (fun g => g.2)).flatten =
      rows.filter (fun r => r.stationCode.isSome) ∧
    ((sectionGroups rows).map (fun g => g.2.length)).sum =
      (rows.filter (fun r => r.stationCode.isSome)).length ∧
    ((∀ r ∈ rows, r.stationCode.isSome) →
      ((sectionGroups rows).map (fun g => g.2)).flatten = rows) ∧
    ((stopGroups rows thresh).map (fun g => g.2)).flatten =
      rows.filter (fun r => isStopped thresh r) ∧
    ((stopGroups rows thresh).map (fun g => g.2.length)).sum =
      (rows.filter (fun r => isStopped thresh r)).length := by
  have hlen : (grpIds pandasKeyEq (rows.map (fun r => r.stationCode))).length =
      rows.length := by
    rw [grpIds_length, List.length_map]
  have hsec : ((sectionGroups rows).map (fun g => g.2)).flatten =
      rows.filter (fun r => r.stationCode.isSome) := by
    rw [sectionGroups, groupRuns_flatten,
      zip_filter_map_snd (fun r => r.stationCode.isSome) _ _ hlen]
  have hlen2 : (grpIds (fun a b => a == b)
      (rows.map (fun r => isStopped thresh r))).length = rows.length := by
    rw [grpIds_length, List.length_map]
  have hstop : ((stopGroups rows thresh).map (fun g => g.2)).flatten =
      rows.filter (fun r => isStopped thresh r) := by
    rw [stopGroups, groupRuns_flatten,
      zip_filter_map_snd (fun r => isStopped thresh r) _ _ hlen2]
  refine ⟨hsec, ?_, ?_, hstop, ?_⟩
  · have := congrArg List.length hsec
    simpa [List.length_flatten, List.map_map, Function.comp] using this
  · intro hall
    rw [hsec]
    exact List.filter_eq_self.mpr hall
  · have := congrArg List.length hstop
    simpa [List.length_flatten, List.map_map, Function.comp] using this

/-- Telemetry with speeds 50, 1, 1 one minute apart: one moving row, two
stopped rows. -/
def c7rows : List LocoRow :=
  [mkRow 0 0 0 50 0 none, mkRow 60 0 0 1 0 none, mkRow 120 0 0 1 0 none]

/-- C7 counterexample: for the stoppage specialization the group point
counts sum to the number of stopped rows (2), not the input length (3), so
the claim's round-trip property fails there. -/
theorem C7_stop_groups_lose_moving_rows :
    ((stopGroups c7rows 2).map (fun g => g.2.length)).sum ≠ c7rows.length := by
  decide

/-! ## Stoppage intervals (src/app.py lines 119-126) -/

/-- One aggregated stoppage interval: group minimum and maximum of Logging
Time (seconds), mean coordinates, and the derived duration in minutes. -/
structure StopInterval where
  startTime : ℚ
  endTime : ℚ
  lat : ℝ
  lon : ℝ
  durationMin : ℚ

/-- Group minimum of the Logging Time column. -/
def minTime : List LocoRow → ℚ
  | [] => 0
  | r :: rs => rs.foldl (fun m q => min m q.time) r.time

/-- Group maximum of the Logging Time column. -/
def maxTime : List LocoRow → ℚ
  | [] => 0
  | r :: rs => rs.foldl (fun m q => max m q.time) r.time

/-- Group mean of the Latitude column. -/
noncomputable def meanLat (l : List LocoRow) : ℝ :=
  (l.map (fun r => r.lat)).sum / l.length

/-- Group mean of the Longitude column. -/
noncomputable def meanLon (l : List LocoRow) : ℝ :=
  (l.map (fun r => r.lon)).sum / l.length

/-- Aggregates of one stoppage group: StartTime, EndTime, Lat, Lon and
Duration_min = (EndTime - StartTime) in seconds over 60. -/
noncomputable def mkStopInterval (l : List LocoRow) : StopInterval :=
  ⟨minTime l, maxTime l, meanLat l, meanLon l, (maxTime l - minTime l) / 60⟩

/-- All aggregated stoppage groups, in frame order. -/
noncomputable def stopIntervals (rows : List LocoRow) (thresh : ℚ) : List StopInterval :=
  (stopGroups rows thresh).map (fun g => mkStopInterval g.2)

/-- Embedding of valid_stops (src/app.py line 126): keep the intervals whose
duration is at least the minimum stoppage duration (in minutes), sorted by
descending duration.  The source sorts with the pandas default sort whose
order on ties is unspecified; the embedding uses insertion sort, which
coincides with it on the duplicate-free durations of these claims. -/
noncomputable def validStops (rows : List LocoRow) (thresh dur : ℚ) : List StopInterval :=
  List.insertionSort (fun s t => t.durationMin ≤ s.durationMin)
    ((stopIntervals rows thresh).filter (fun s => decide (dur ≤ s.durationMin)))

/-- The spec's stoppage scenario: speeds 50, 1, 1, 1, 60 at one-minute
intervals. -/
def c3rows : List LocoRow :=
  [mkRow 0 0 0 50 0 none, mkRow 60 0 0 1 0 none, mkRow 120 0 0 1 0 none,
   mkRow 180 0 0 1 0 none, mkRow 240 0 0 60 0 none]

/-- The stopped run of c3rows is rows 1-3 and its aggregated duration is
(180 - 60) / 60 = 2 minutes. -/
lemma c3_validStops_eval :
    (validStops c3rows 2 2).map (fun s => s.durationMin) = [2] := by
  have hg : stopGroups c3rows 2 =
      [(2, [mkRow 60 0 0 1 0 none, mkRow 120 0 0 1 0 none, mkRow 180 0 0 1 0 none])] := by
    rw [stopGroups]
    norm_num [c3rows, grpIds, grpIdsAux, isStopped, mkRow, groupRuns]
  rw [validStops, stopIntervals, hg]
  norm_num [mkStopInterval, minTime, maxTime, mkRow, List.filter,
    List.insertionSort, min_def, max_def]

/-- C3 counterexample: on the scenario input the single retained stoppage
interval lasts 2 minutes (EndTime - StartTime over the stopped rows), not
the 3 minutes the claim states. -/
theorem C3_duration_is_not_three :
    (validStops c3rows 2 2).map (fun s => s.durationMin) ≠ [3] := by
  rw [c3_validStops_eval]
  intro h
  have h2 : (2 : ℚ) = 3 := (List.cons_eq_cons.mp h).1
  norm_num at h2

/-- C3 (amended): the scenario input yields exactly one retained stoppage
interval and its duration is 2 minutes. -/
theorem C3_one_stop_of_two_minutes :
    (validStops c3rows 2 2).map (fun s => s.durationMin) = [2] :=
  c3_validStops_eval

/-! ## Signal Reference Mapper (src/app.py lines 60-75; the merge in
src/streamlit_app.py lines 175-183 is the same join, with dropna on
Latitude only) -/

/-- Characters stripped from both ends, the embedding of python str.strip
applied by astype(str).str.strip(). -/
def stripChars (l : List Char) : List Char :=
  ((l.dropWhile Char.isWhitespace).reverse.dropWhile Char.isWhitespace).reverse

/-- Whitespace-trimmed identifier. -/
def strip (s : String) : String := ⟨stripChars s.data⟩

/-- One row of the signal list CSV: the join key 'OHE FROM' and the display
name 'SIGNAL NAME'. -/
structure SigRow where
  oheFrom : String
  signalName : String

/-- One row of the OHE master CSV: the join key 'OHEMas' and coordinates,
none standing for a NaN cell. -/
structure OheRow where
  oheMas : String
  lat : Option ℝ
  lon : Option ℝ

/-- One successfully mapped signal. -/
structure MappedSignal where
  name : String
  lat : ℝ
  lon : ℝ

/-- Embedding of the mapping of src/app.py lines 67-72: a left join of the
signal list against the OHE master on the whitespace-trimmed identifiers
followed by dropna on Latitude and Longitude.  A left row with no match
contributes the one all-NaN row that dropna removes, so the flatMap over the
matches is exactly the merge-then-dropna result, in merge order. -/
def mapSignals (sigs : List SigRow) (ohe : List OheRow) : List MappedSignal :=
  sigs.flatMap (fun s =>
    (ohe.filter (fun o => strip o.oheMas == strip s.oheFrom)).filterMap (fun o =>
      match o.lat, o.lon with
      | some la, some lo => some ⟨s.signalName, la, lo⟩
      | _, _ => none))

/-- C9: when no trimmed signal identifier matches any trimmed master
identifier, the mapper returns the empty mapped-signal set and the
diagnostic count len(signals_mapped) it reports is 0; the join and the
dropna are total operations, so nothing is raised to the caller. -/
theorem C9_unmatched_join_is_empty (sigs : List SigRow) (ohe : List OheRow)
    (h : ∀ s ∈ sigs, ∀ o ∈ ohe, strip o.oheMas ≠ strip s.oheFrom) :
    mapSignals sigs ohe = [] ∧ (mapSignals sigs ohe).length = 0 := by
  have hempty : mapSignals sigs ohe = [] := by
    rw [mapSignals, List.flatMap_eq_nil_iff]
    intro s hs
    have hfil : ohe.filter (fun o => strip o.oheMas == strip s.oheFrom) = [] := by
      rw [List.filter_eq_nil_iff]
      intro o ho
      simp only [beq_iff_eq]
      exact h s hs o ho
    rw [hfil]
    rfl
  exact ⟨hempty, by rw [hempty]; rfl⟩

/-- Closed witness for C9: a one-signal, one-master-row input whose
identifiers differ maps to the empty set with diagnostic count 0. -/
theorem C9_unmatched_join_witness :
    (∀ s ∈ [SigRow.mk " S100 " "Signal A"], ∀ o ∈ [OheRow.mk "T200" (some 1) (some 2)],
      strip o.oheMas ≠ strip s.oheFrom) ∧
    mapSignals [SigRow.mk " S100 " "Signal A"] [OheRow.mk "T200" (some 1) (some 2)] = [] ∧
    (mapSignals [SigRow.mk " S100 " "Signal A"] [OheRow.mk "T200" (some 1) (some 2)]).length = 0 := by
  have h : ∀ s ∈ [SigRow.mk " S100 " "Signal A"],
      ∀ o ∈ [OheRow.mk "T200" (some 1) (some 2)], strip o.oheMas ≠ strip s.oheFrom := by
    intro s hs o ho
    simp only [List.mem_singleton] at hs ho
    subst hs; subst ho
    decide
  obtain ⟨h1, h2⟩ := C9_unmatched_join_is_empty _ _ h
  exact ⟨h, h1, h2⟩

/-! ## Signal Proximity Matcher (src/app.py lines 133-168) -/

/-- One entry of the per-signal results list the matcher appends: signal
name, Pass Time, Speed and Distance to Signal. -/
structure SigResult where
  signal : String
  passTime : ℚ
  speed : ℚ
  dist : ℝ

/-- Distance of a telemetry point to a signal, exactly as line 146 computes
it with haversine_vectorized. -/
noncomputable def distToSignal (sig : MappedSignal) (p : LocoRow) : ℝ :=
  haversine_vectorized p.lat p.lon sig.lat sig.lon

/-- Bounding-box pre-filter of lines 140-143: both coordinates within ±0.01
degrees of the signal (pandas between is inclusive at both ends). -/
noncomputable def inBox (sig : MappedSignal) (p : LocoRow) : Bool :=
  decide (sig.lat - 1 / 100 ≤ p.lat ∧ p.lat ≤ sig.lat + 1 / 100 ∧
    sig.lon - 1 / 100 ≤ p.lon ∧ p.lon ≤ sig.lon + 1 / 100)

/-- The candidate telemetry points near one signal. -/
noncomputable def nearbyPts (rows : List LocoRow) (sig : MappedSignal) : List LocoRow :=
  rows.filter (fun p => inBox sig p)

/-- Embedding of lines 144-155 for one signal: the closest candidate by
idxmin (first row of minimum distance, which List.argmin also selects) is
recorded when its distance is strictly below 200 m; an empty candidate set
or a minimum of 200 m or more records nothing. -/
noncomputable def signalResult (rows : List LocoRow) (sig : MappedSignal) :
    Option SigResult :=
  match (nearbyPts rows sig).argmin (distToSignal sig) with
  | none => none
  | some p =>
    if distToSignal sig p < 200 then
      some ⟨sig.name, p.time, p.speed, distToSignal sig p⟩
    else none

/-- The results list over all mapped signals, in signal order. -/
noncomputable def signalResults (rows : List LocoRow) (sigs : List MappedSignal) :
    List SigResult :=
  sigs.filterMap (fun sig => signalResult rows sig)

/-- The train types the sidebar selectbox offers. -/
inductive TrainType
  | Coaching
  | VandeBharat
  | Freight
deriving DecidableEq

/-- Embedding of line 162: limit = 60 if train_type == "Coaching" else 40. -/
def limitFor (tt : TrainType) : ℚ :=
  if tt = TrainType.Coaching then 60 else 40

/-- Embedding of line 163: the recorded passes whose Speed strictly exceeds
the limit. -/
def violationsFor (tt : TrainType) (res : List SigResult) : List SigResult :=
  res.filter (fun r => decide (limitFor tt < r.speed))

/-! ## Report Assembler (src/streamlit_app.py lines 41-100, 174-186, 236) -/

/-- Rendering of a non-empty violations table (stands for
DataFrame.to_html; only reached when the table is non-empty). -/
def violationsToHtml (vs : List SigResult) : String :=
  "<table>" ++
    String.join (vs.map (fun v => "<tr><td>" ++ v.signal ++ "</td></tr>")) ++
    "</table>"

/-- Embedding of the violations section of generate_html_report (line 92):
the fallback paragraph when the table is empty, its HTML otherwise. -/
def violationsSection (vs : List SigResult) : String :=
  if vs.isEmpty then
    "<p>No signal speed violations detected (or no signal data provided).</p>"
  else violationsToHtml vs

/-- Embedding of the violations_df computation of src/streamlit_app.py
lines 174-186: initialised to an empty table; when reference files are
provided the branch computes the mapped signals and ends at the placeholder
comment without ever writing to violations_df. -/
def streamlitViolations (refData : Option (List SigRow × List OheRow)) :
    List SigResult :=
  match refData with
  | none => []
  | some (sigs, ohe) =>
    let _mapped := mapSignals sigs ohe
    []

/-- C6: whatever reference data is supplied — none, or signal and OHE
master tables that map successfully — the violations collection handed to
generate_html_report is empty, so the report's violation section is always
the no-violations paragraph. -/
theorem C6_report_never_shows_violations (refData : Option (List SigRow × List OheRow)) :
    streamlitViolations refData = [] ∧
    violationsSection (streamlitViolations refData) =
      "<p>No signal speed violations detected (or no signal data provided).</p>" := by
  cases refData with
  | none => exact ⟨rfl, rfl⟩
  | some sp =>
    obtain ⟨sigs, ohe⟩ := sp
    exact ⟨rfl, rfl⟩

/-! ## Matcher theorems -/

/-- C4 (amended): the matcher considers exactly the telemetry points within
±0.01 degrees of the signal in both coordinates; it records nothing exactly
when every candidate is at least 200 m away (in particular when no
candidate exists), so a minimum of exactly 200 m is excluded; and every
recorded pass comes from a minimum-distance candidate strictly below 200 m,
carrying that point's timestamp and speed together with its distance. -/
theorem C4_matcher_characterisation (rows : List LocoRow) (sig : MappedSignal) :
    (∀ p ∈ nearbyPts rows sig, p ∈ rows ∧
      |p.lat - sig.lat| ≤ 1 / 100 ∧ |p.lon - sig.lon| ≤ 1 / 100) ∧
    (signalResult rows sig = none ↔
      ∀ p ∈ nearbyPts rows sig, 200 ≤ distToSignal sig p) ∧
    (∀ r, signalResult rows sig = some r →
      ∃ p, p ∈ nearbyPts rows sig ∧
        (∀ q ∈ nearbyPts rows sig, distToSignal sig p ≤ distToSignal sig q) ∧
        distToSignal sig p < 200 ∧
        r = ⟨sig.name, p.time, p.speed, distToSignal sig p⟩) := by
  refine ⟨?_, ?_, ?_⟩
  · intro p hp
    rw [nearbyPts, List.mem_filter] at hp
    obtain ⟨hpr, hbox⟩ := hp
    rw [inBox, decide_eq_true_eq] at hbox
    obtain ⟨h1, h2, h3, h4⟩ := hbox
    exact ⟨hpr, abs_le.mpr ⟨by linarith, by linarith⟩,
      abs_le.mpr ⟨by linarith, by linarith⟩⟩
  · cases hm : (nearbyPts rows sig).argmin (distToSignal sig) with
    | none =>
      have hnil : nearbyPts rows sig = [] := List.argmin_eq_none.mp hm
      constructor
      · intro _ p hp
        rw [hnil] at hp
        exact absurd hp (List.not_mem_nil p)
      · intro _
        unfold signalResult
        rw [hm]
    | some m =>
      have hmm : m ∈ (nearbyPts rows sig).argmin (distToSignal sig) :=
        Option.mem_def.mpr hm
      have hmem : m ∈ nearbyPts rows sig := List.argmin_mem hmm
      constructor
      · intro hres p hp
        unfold signalResult at hres
        rw [hm] at hres
        have hres2 : (if distToSignal sig m < 200 then
            some (⟨sig.name, m.time, m.speed, distToSignal sig m⟩ : SigResult)
            else none) = none := hres
        by_cases hlt : distToSignal sig m < 200
        · rw [if_pos hlt] at hres2
          exact absurd hres2 (by simp)
        · push_neg at hlt
          exact le_trans hlt (List.le_of_mem_argmin hp hmm)
      · intro hall
        unfold signalResult
        rw [hm]
        show (if distToSignal sig m < 200 then
          some (⟨sig.name, m.time, m.speed, distToSignal sig m⟩ : SigResult)
          else none) = none
        rw [if_neg]
        push_neg
        exact hall m hmem
  · intro r hres
    unfold signalResult at hres
    cases hm : (nearbyPts rows sig).argmin (distToSignal sig) with
    | none =>
      rw [hm] at hres
      exact absurd hres (by simp)
    | some m =>
      have hmm : m ∈ (nearbyPts rows sig).argmin (distToSignal sig) :=
        Option.mem_def.mpr hm
      rw [hm] at hres
      have hres2 : (if distToSignal sig m < 200 then
          some (⟨sig.name, m.time, m.speed, distToSignal sig m⟩ : SigResult)
          else none) = some r := hres
      by_cases hlt : distToSignal sig m < 200
      · rw [if_pos hlt] at hres2
        refine ⟨m, List.argmin_mem hmm, ?_, hlt, (Option.some.inj hres2).symm⟩
        intro q hq
        exact List.le_of_mem_argmin hq hmm
      · rw [if_neg hlt] at hres2
        exact absurd hres2 (by simp)

/-- The let-expanded form of the embedded haversine. -/
lemma haversine_vectorized_eq (lat1 lon1 lat2 lon2 : ℝ) :
    haversine_vectorized lat1 lon1 lat2 lon2 =
      6371000 * (2 * arctan2
        (Real.sqrt (Real.sin ((lat2 - lat1) * Real.pi / 180 / 2) ^ 2 +
          Real.cos lat1 * Real.cos lat2 *
            Real.sin ((lon2 - lon1) * Real.pi / 180 / 2) ^ 2))
        (Real.sqrt (1 - (Real.sin ((lat2 - lat1) * Real.pi / 180 / 2) ^ 2 +
          Real.cos lat1 * Real.cos lat2 *
            Real.sin ((lon2 - lon1) * Real.pi / 180 / 2) ^ 2)))) :=
  rfl

/-- At equal longitudes, with the second point on the equator and the first
x ≥ 0 degrees north, the embedded haversine collapses to R times the angle
x·π/180 radians: the degree-cosine bug is multiplied by sin 0 = 0 there. -/
lemma haversine_same_lon (x lon : ℝ) (h0 : 0 ≤ x)
    (hx : x * Real.pi / 360 < Real.pi / 2) :
    haversine_vectorized x lon 0 lon = 6371000 * (x * Real.pi / 180) := by
  have hpi := Real.pi_pos
  set θ := x * Real.pi / 360 with hθ
  have hθ0 : 0 ≤ θ := by rw [hθ]; positivity
  have hcos : 0 < Real.cos θ := Real.cos_pos_of_mem_Ioo ⟨by linarith, hx⟩
  have hsin : 0 ≤ Real.sin θ :=
    Real.sin_nonneg_of_nonneg_of_le_pi hθ0 (by linarith)
  rw [haversine_vectorized_eq]
  have e1 : (0 - x) * Real.pi / 180 / 2 = -θ := by rw [hθ]; ring
  have e2 : (lon - lon) * Real.pi / 180 / 2 = 0 := by ring
  rw [e1, e2, Real.sin_zero, Real.sin_neg, neg_sq]
  rw [show (0:ℝ) ^ 2 = 0 by norm_num, mul_zero, add_zero]
  rw [Real.sqrt_sq hsin, ← Real.cos_sq', Real.sqrt_sq hcos.le]
  rw [arctan2_of_pos hcos, ← Real.tan_eq_sin_div_cos,
    Real.arctan_tan (by linarith) hx]
  rw [hθ]
  ring

/-- The latitude at which the embedded distance to a signal at the origin
with equal longitude is exactly 200 m. -/
noncomputable def lat200 : ℝ := 36 / (6371 * Real.pi)

/-- One telemetry point exactly 200 m north of the origin under the
embedded distance. -/
noncomputable def c4pt : LocoRow := ⟨0, lat200, 0, 50, 0, ""⟩

/-- A mapped signal at the origin. -/
def c4sig : MappedSignal := ⟨"S1", 0, 0⟩

/-- The boundary latitude is nonnegative. -/
lemma lat200_nonneg : 0 ≤ lat200 := by
  rw [lat200]
  positivity

/-- The boundary latitude lies inside the 0.01-degree box. -/
lemma lat200_le : lat200 ≤ 1 / 100 := by
  rw [lat200, div_le_div_iff₀ (by positivity) (by norm_num)]
  nlinarith [Real.pi_gt_three]

/-- The angle of the boundary latitude is 1/63710 radians. -/
lemma lat200_angle : lat200 * Real.pi / 360 = 1 / 63710 := by
  rw [lat200]
  field_simp
  ring

/-- The embedded distance from the boundary point to the origin signal is
exactly 200 m. -/
lemma dist_c4pt : distToSignal c4sig c4pt = 200 := by
  show haversine_vectorized lat200 0 0 0 = 200
  rw [haversine_same_lon lat200 0 lat200_nonneg
    (by rw [lat200_angle]; linarith [Real.pi_gt_three])]
  rw [show lat200 * Real.pi / 180 = 2 * (lat200 * Real.pi / 360) by ring,
    lat200_angle]
  norm_num

/-- C4 counterexample: a candidate at exactly 200 m (inside the bounding
box) is the minimum, 200 does not exceed 200, yet the matcher records
nothing for the signal: line 149 keeps only distances strictly below
200 m. -/
theorem C4_exact_200m_not_recorded :
    nearbyPts [c4pt] c4sig = [c4pt] ∧
    distToSignal c4sig c4pt = 200 ∧
    signalResult [c4pt] c4sig = none := by
  have hbox : inBox c4sig c4pt = true := by
    rw [inBox, decide_eq_true_eq]
    refine ⟨?_, ?_, ?_, ?_⟩
    · show (0:ℝ) - 1 / 100 ≤ lat200
      linarith [lat200_nonneg]
    · show lat200 ≤ (0:ℝ) + 1 / 100
      linarith [lat200_le]
    · show (0:ℝ) - 1 / 100 ≤ 0
      norm_num
    · show (0:ℝ) ≤ 0 + 1 / 100
      norm_num
  have hnear : nearbyPts [c4pt] c4sig = [c4pt] := by
    rw [nearbyPts]
    simp [List.filter_cons, hbox]
  refine ⟨hnear, dist_c4pt, ?_⟩
  unfold signalResult
  rw [hnear, List.argmin_singleton]
  show (if distToSignal c4sig c4pt < 200 then
    some (⟨c4sig.name, c4pt.time, c4pt.speed, distToSignal c4sig c4pt⟩ : SigResult)
    else none) = none
  rw [dist_c4pt, if_neg (lt_irrefl 200)]

/-- The spec's violation-scenario telemetry point: latitude 0.0005 degrees,
longitude 0, speed 70 km/h. -/
noncomputable def c5pt : LocoRow := ⟨0, 1 / 2000, 0, 70, 0, ""⟩

/-- The violation-scenario signal at the origin. -/
def c5sig : MappedSignal := ⟨"S1", 0, 0⟩

/-- The embedded distance of the scenario point to the scenario signal. -/
lemma dist_c5pt : distToSignal c5sig c5pt =
    6371000 * (1 / 2000 * Real.pi / 180) := by
  show haversine_vectorized (1 / 2000) 0 0 0 = _
  exact haversine_same_lon (1 / 2000) 0 (by norm_num)
    (by nlinarith [Real.pi_pos])

/-- The scenario distance is about 55.6 m: strictly between 55 and 56. -/
lemma dist_c5pt_bounds : 55 < distToSignal c5sig c5pt ∧
    distToSignal c5sig c5pt < 56 := by
  rw [dist_c5pt]
  constructor <;> nlinarith [Real.pi_gt_d6, Real.pi_lt_d2]

/-- The matcher records the scenario point for the scenario signal with its
timestamp, speed and distance. -/
lemma c5_results : signalResults [c5pt] [c5sig] =
    [⟨"S1", 0, 70, distToSignal c5sig c5pt⟩] := by
  have hbox : inBox c5sig c5pt = true := by
    rw [inBox, decide_eq_true_eq]
    refine ⟨?_, ?_, ?_, ?_⟩
    · show (0:ℝ) - 1 / 100 ≤ 1 / 2000
      norm_num
    · show (1:ℝ) / 2000 ≤ 0 + 1 / 100
      norm_num
    · show (0:ℝ) - 1 / 100 ≤ 0
      norm_num
    · show (0:ℝ) ≤ 0 + 1 / 100
      norm_num
  have hnear : nearbyPts [c5pt] c5sig = [c5pt] := by
    rw [nearbyPts]
    simp [List.filter_cons, hbox]
  have hone : signalResult [c5pt] c5sig =
      some ⟨"S1", 0, 70, distToSignal c5sig c5pt⟩ := by
    unfold signalResult
    rw [hnear, List.argmin_singleton]
    show (if distToSignal c5sig c5pt < 200 then
      some (⟨c5sig.name, c5pt.time, c5pt.speed, distToSignal c5sig c5pt⟩ : SigResult)
      else none) = _
    rw [if_pos (by linarith [dist_c5pt_bounds.2])]
    rfl
  rw [signalResults, List.filterMap_cons, hone]
  rfl

/-- C5: a recorded pass is a violation exactly when its speed strictly
exceeds the train-type limit — 60 km/h for Coaching, 40 km/h for Vande
Bharat and Freight — and on the spec's scenario (signal at the origin, one
point 0.0005 degrees north at 70 km/h, Coaching) exactly one violation is
recorded, at a distance strictly between 55 and 56 metres. -/
theorem C5_violation_policy :
    (∀ tt res r, r ∈ violationsFor tt res ↔ r ∈ res ∧ limitFor tt < r.speed) ∧
    limitFor TrainType.Coaching = 60 ∧
    limitFor TrainType.VandeBharat = 40 ∧
    limitFor TrainType.Freight = 40 ∧
    (∃ d, violationsFor TrainType.Coaching (signalResults [c5pt] [c5sig]) =
        [⟨"S1", 0, 70, d⟩] ∧ 55 < d ∧ d < 56) := by
  refine ⟨?_, rfl, rfl, rfl,
    ⟨distToSignal c5sig c5pt, ?_, dist_c5pt_bounds.1, dist_c5pt_bounds.2⟩⟩
  · intro tt res r
    rw [violationsFor, List.mem_filter, decide_eq_true_eq]
  · rw [c5_results, violationsFor, List.filter_cons]
    rw [if_pos (by rw [decide_eq_true_eq]; show limitFor TrainType.Coaching < 70; rw [show limitFor TrainType.Coaching = 60 from rfl]; norm_num)]
    rfl

end SPM
